import Mathlib

/-!
Shallow embedding of `src/chalk-rust/src/ir/debug.rs`: the Debug printers of
the chalk IR (types, lifetimes, trait references, where-clauses and goals).
The IR node types themselves live in the crate's `ir` module, which is not
part of the sources here; they are modelled from the specification's data
model (section 3).  The rendering functions below are translated directly
from the `Debug` impls in `debug.rs`.  Rust's `fmt` can fail only through
the sink; the one printer-side failure is the `parameters[0]` indexing panic
on an empty `TraitRef.parameters`, which the embedding models by returning
`none` (an `Option`-valued renderer): `none` is an uncaught panic, `some s`
is the full rendered text.
-/

namespace Chalk

/-- Modelled from the spec: an opaque index identifying a declared type or
trait; equality is by index only. -/
structure ItemId where
  index : Nat
  deriving DecidableEq

/-- Modelled from the spec: an integer counter identifying a universe. -/
structure UniverseIndex where
  counter : Nat
  deriving DecidableEq

/-- Modelled from the spec: the entry a `Program` stores for an item; the
printer only reads its declared `name` (an interned string, displayed
verbatim). -/
structure TypeKind where
  name : String
  deriving DecidableEq

/-- Modelled from the spec: the program registry mapping item identifiers to
their declared kinds/names (`p.type_kinds.get(id)` in the source), modelled
as an association list keyed by `ItemId`. -/
structure Program where
  typeKinds : List (ItemId × TypeKind)

/-- Modelled from the spec: `AssociatedType { trait_id, name }`. -/
structure AssociatedType where
  traitId : ItemId
  name : String

/-- Modelled from the spec: `TypeName = ItemId | ForAll(UniverseIndex) |
AssociatedType`. -/
inductive TypeName where
  | itemId (id : ItemId)
  | forAll (u : UniverseIndex)
  | associatedType (assocTy : AssociatedType)

/-- Modelled from the spec: `Lifetime = Var(depth) | ForAll(UniverseIndex)`. -/
inductive Lifetime where
  | var (depth : Nat)
  | forAll (u : UniverseIndex)

mutual

/-- Modelled from the spec: `Ty = Var(depth) | Apply | Projection | ForAll`. -/
inductive Ty where
  | var (depth : Nat)
  | apply (a : ApplicationTy)
  | projection (p : ProjectionTy)
  | forAll (q : QuantifiedTy)

/-- Modelled from the spec: `QuantifiedTy { num_binders, ty }`. -/
inductive QuantifiedTy where
  | mk (numBinders : Nat) (ty : Ty)

/-- Modelled from the spec: `ApplicationTy { name, parameters }`. -/
inductive ApplicationTy where
  | mk (name : TypeName) (parameters : List Parameter)

/-- Modelled from the spec: `TraitRef { trait_id, parameters }` where
`parameters[0]` is the Self type. -/
inductive TraitRef where
  | mk (traitId : ItemId) (parameters : List Parameter)

/-- Modelled from the spec: `ProjectionTy { trait_ref, name }`. -/
inductive ProjectionTy where
  | mk (traitRef : TraitRef) (name : String)

/-- Modelled from the spec: `ParameterKind<Ty, Lifetime>`, the argument-slot
union, instantiated at its only use as a term argument. -/
inductive Parameter where
  | ty (t : Ty)
  | lifetime (l : Lifetime)

end

/-- Modelled from the spec: `Normalize { projection, ty }`. -/
structure Normalize where
  projection : ProjectionTy
  ty : Ty

/-- Modelled from the spec: `Unify<T> { a, b }`. -/
structure Unify (T : Type) where
  a : T
  b : T

/-- Modelled from the spec: `WhereClause = Normalize | Implemented(TraitRef)`. -/
inductive WhereClause where
  | normalize (n : Normalize)
  | implemented (traitRef : TraitRef)

/-- Modelled from the spec: `WhereClauseGoal = Normalize |
Implemented(TraitRef) | UnifyTys(Unify<Ty>)`. -/
inductive WhereClauseGoal where
  | normalize (n : Normalize)
  | implemented (traitRef : TraitRef)
  | unifyTys (u : Unify Ty)

/-- Modelled from the spec: `ParameterKind<(), ()>` as used to tag the binder
kind of a quantified goal. -/
inductive BinderKind where
  | ty
  | lifetime

/-- Modelled from the spec: `Goal = Quantified(kind, ParameterKind<(),()>,
Goal) | Implies(WhereClause, Goal) | And(Goal, Goal) | Leaf(WhereClauseGoal)`.
The quantifier kind is rendered by its own Debug form, which is outside this
file; it is represented here by its rendered text. -/
inductive Goal where
  | quantified (qkind : String) (binder : BinderKind) (g : Goal)
  | implies (wc : WhereClause) (g : Goal)
  | and (g1 : Goal) (g2 : Goal)
  | leaf (wc : WhereClauseGoal)

/-- The single-quote character (codepoint 39), used by lifetime rendering. -/
def singleQuote : String := String.singleton (Char.ofNat 39)

/-- Translation of `impl Debug for ItemId` (debug.rs:5-14): under an active program that
knows the id, print the declared name; otherwise the `debug_struct`
fallback `ItemId \x7b index: N \x7d`. -/
def renderItemId (prog : Option Program) (id : ItemId) : String :=
  match prog.bind (fun p => p.typeKinds.lookup id) with
  | some k => k.name
  | none => "ItemId \x7b index: " ++ Nat.repr id.index ++ " \x7d"

/-- Translation of `impl Debug for UniverseIndex` (debug.rs:16-20): `U{counter}`. -/
def renderUniverseIndex (u : UniverseIndex) : String :=
  "U" ++ Nat.repr u.counter

/-- Translation of `impl Debug for AssociatedType` (debug.rs:32-36): `({trait_id}::{name})`. -/
def renderAssociatedType (prog : Option Program) (a : AssociatedType) : String :=
  "(" ++ renderItemId prog a.traitId ++ "::" ++ a.name ++ ")"

/-- Translation of `impl Debug for TypeName` (debug.rs:22-30). -/
def renderTypeName (prog : Option Program) : TypeName → String
  | .itemId id => renderItemId prog id
  | .forAll u => "!" ++ Nat.repr u.counter
  | .associatedType a => renderAssociatedType prog a

/-- Translation of `impl Debug for Lifetime` (debug.rs:66-73): `'?{depth}` and
`'!{counter}`. -/
def renderLifetime : Lifetime → String
  | .var depth => singleQuote ++ "?" ++ Nat.repr depth
  | .forAll u => singleQuote ++ "!" ++ Nat.repr u.counter

/-- Translation of `impl Debug for Angle` (debug.rs:99-114), over the already-rendered
elements: nothing when the slice is empty, otherwise `<`, the first element,
each later element preceded by `, `, and `>`. -/
def angle (elems : List String) : String :=
  match elems with
  | [] => ""
  | first :: rest =>
      "<" ++ first ++ rest.foldl (fun acc e => acc ++ ", " ++ e) "" ++ ">"

mutual

/-- Translation of `impl Debug for Ty` (debug.rs:47-56). -/
def renderTy (prog : Option Program) : Ty → Option String
  | .var depth => some ("?" ++ Nat.repr depth)
  | .apply a => renderApplicationTy prog a
  | .projection p => renderProjectionTy prog p
  | .forAll q => renderQuantifiedTy prog q

/-- Translation of `impl Debug for QuantifiedTy` (debug.rs:58-64): `for<{n}> {ty}`. -/
def renderQuantifiedTy (prog : Option Program) : QuantifiedTy → Option String
  | .mk numBinders ty =>
      match renderTy prog ty with
      | some s => some ("for<" ++ Nat.repr numBinders ++ "> " ++ s)
      | none => none

/-- Translation of `impl Debug for ApplicationTy` (debug.rs:75-79): `{name}{Angle(params)}`. -/
def renderApplicationTy (prog : Option Program) : ApplicationTy → Option String
  | .mk name parameters =>
      match renderParams prog parameters with
      | some ps => some (renderTypeName prog name ++ angle ps)
      | none => none

/-- Translation of `impl Debug for TraitRef` (debug.rs:81-89):
`{parameters[0]} as {trait_id}{Angle(parameters[1..])}`; indexing
`parameters[0]` on an empty sequence panics (`none`). -/
def renderTraitRef (prog : Option Program) : TraitRef → Option String
  | .mk traitId parameters =>
      match parameters with
      | [] => none
      | p0 :: rest =>
          match renderParameter prog p0, renderParams prog rest with
          | some s0, some rs =>
              some (s0 ++ " as " ++ renderItemId prog traitId ++ angle rs)
          | _, _ => none

/-- Translation of `impl Debug for ProjectionTy` (debug.rs:91-95): `<{trait_ref}>::{name}`. -/
def renderProjectionTy (prog : Option Program) : ProjectionTy → Option String
  | .mk traitRef name =>
      match renderTraitRef prog traitRef with
      | some s => some ("<" ++ s ++ ">::" ++ name)
      | none => none

/-- Translation of `impl Debug for ParameterKind<T, L>` (debug.rs:38-45): the wrapper adds
nothing. -/
def renderParameter (prog : Option Program) : Parameter → Option String
  | .ty t => renderTy prog t
  | .lifetime l => some (renderLifetime l)

/-- Renders each element of a parameter list in order (the `iter()` driving
`Angle`); fails as soon as one element's renderer fails. -/
def renderParams (prog : Option Program) : List Parameter → Option (List String)
  | [] => some []
  | p :: ps =>
      match renderParameter prog p, renderParams prog ps with
      | some s, some ss => some (s :: ss)
      | _, _ => none

end

/-- Translation of `impl Debug for Assignment` (debug.rs:116-122): `{name} = {ty}`. -/
def renderAssignment (prog : Option Program) (name : String) (ty : Ty) :
    Option String :=
  match renderTy prog ty with
  | some s => some (name ++ " = " ++ s)
  | none => none

/-- Translation of `impl Debug for Normalize` (debug.rs:124-141):
`{parameters[0]}: {trait_id}{Angle(parameters[1..] ++ [assignment])}` with
the synthetic `{name} = {ty}` assignment as the final angle argument;
`parameters[0]` on an empty sequence panics (`none`). -/
def renderNormalize (prog : Option Program) : Normalize → Option String
  | .mk (ProjectionTy.mk (TraitRef.mk traitId parameters) name) ty =>
      match parameters with
      | [] => none
      | p0 :: rest =>
          match renderParameter prog p0, renderParams prog rest,
                renderAssignment prog name ty with
          | some s0, some rs, some assign =>
              some (s0 ++ ": " ++ renderItemId prog traitId ++
                    angle (rs ++ [assign]))
          | _, _, _ => none

/-- Translation of `impl Debug for WhereClause` (debug.rs:143-156): `Normalize` delegates;
`Implemented(n)` prints `{n.parameters[0]}: {n.trait_id}{Angle(rest)}`. -/
def renderWhereClause (prog : Option Program) : WhereClause → Option String
  | .normalize n => renderNormalize prog n
  | .implemented (TraitRef.mk traitId parameters) =>
      match parameters with
      | [] => none
      | p0 :: rest =>
          match renderParameter prog p0, renderParams prog rest with
          | some s0, some rs =>
              some (s0 ++ ": " ++ renderItemId prog traitId ++ angle rs)
          | _, _ => none

/-- Translation of `impl Debug for Unify<T>` (debug.rs:174-178): `({a} = {b})`. -/
def renderUnify (prog : Option Program) (u : Unify Ty) : Option String :=
  match renderTy prog u.a, renderTy prog u.b with
  | some sa, some sb => some ("(" ++ sa ++ " = " ++ sb ++ ")")
  | _, _ => none

/-- Translation of `impl Debug for WhereClauseGoal` (debug.rs:158-172). -/
def renderWhereClauseGoal (prog : Option Program) : WhereClauseGoal → Option String
  | .normalize n => renderNormalize prog n
  | .implemented (TraitRef.mk traitId parameters) =>
      match parameters with
      | [] => none
      | p0 :: rest =>
          match renderParameter prog p0, renderParams prog rest with
          | some s0, some rs =>
              some (s0 ++ ": " ++ renderItemId prog traitId ++ angle rs)
          | _, _ => none
  | .unifyTys u => renderUnify prog u

/-- Translation of `impl Debug for Goal` (debug.rs:180-192).  Note the source's two
`Quantified` arms (debug.rs:183-186) both emit the literal `<type>` label,
for the `Ty` binder and the `Lifetime` binder alike. -/
def renderGoal (prog : Option Program) : Goal → Option String
  | .quantified qkind BinderKind.ty g =>
      match renderGoal prog g with
      | some s => some (qkind ++ "<type> \x7b " ++ s ++ " \x7d")
      | none => none
  | .quantified qkind BinderKind.lifetime g =>
      match renderGoal prog g with
      | some s => some (qkind ++ "<type> \x7b " ++ s ++ " \x7d")
      | none => none
  | .implies wc g =>
      match renderWhereClause prog wc, renderGoal prog g with
      | some sw, some sg => some ("if (" ++ sw ++ ") \x7b " ++ sg ++ " \x7d")
      | _, _ => none
  | .and g1 g2 =>
      match renderGoal prog g1, renderGoal prog g2 with
      | some s1, some s2 => some ("(" ++ s1 ++ ", " ++ s2 ++ ")")
      | _, _ => none
  | .leaf wc => renderWhereClauseGoal prog wc

/-! ### Concrete fixtures for the spec's scenarios -/

/-- A nullary application of the item with index `i`; under a program that
names the item, it renders as exactly that name. -/
def namedTy (i : Nat) : Ty :=
  Ty.apply (ApplicationTy.mk (TypeName.itemId (ItemId.mk i)) [])

/-- The program of the section-8 scenarios: indices 0, 1, 2 name the types
`SelfTy`, `Arg`, `OutTy` and index 7 names the trait `T`. -/
def exProgram : Program :=
  Program.mk [(ItemId.mk 0, TypeKind.mk ("SelfTy")),
              (ItemId.mk 1, TypeKind.mk ("Arg")),
              (ItemId.mk 2, TypeKind.mk ("OutTy")),
              (ItemId.mk 7, TypeKind.mk ("T"))]

/-- The section-8 `Normalize` scenario value. -/
def exNormalize : Normalize :=
  Normalize.mk
    (ProjectionTy.mk
      (TraitRef.mk (ItemId.mk 7)
        [Parameter.ty (namedTy 0), Parameter.ty (namedTy 1)])
      ("Item"))
    (namedTy 2)

/-- A trait reference with a single Self parameter, shared by the scenario
statements about `Implemented` and bracket-forcing in `Normalize`. -/
def exTraitRef : TraitRef :=
  TraitRef.mk (ItemId.mk 7) [Parameter.ty (namedTy 0)]

/-! ### Helper lemmas about `angle` -/

/-- The comma-prefixing fold ignores how its accumulator was assembled. -/
theorem foldl_comma_prepend (as : List String) :
    ∀ x y : String,
      as.foldl (fun acc e => acc ++ ", " ++ e) (x ++ y) =
        x ++ as.foldl (fun acc e => acc ++ ", " ++ e) y := by
  induction as with
  | nil => intro x y; rfl
  | cons a as ih =>
      intro x y
      show as.foldl (fun acc e => acc ++ ", " ++ e) (x ++ y ++ ", " ++ a) =
          x ++ as.foldl (fun acc e => acc ++ ", " ++ e) (y ++ ", " ++ a)
      rw [String.append_assoc (x ++ y) (", ") a, String.append_assoc x y (", " ++ a),
        show y ++ (", " ++ a) = y ++ ", " ++ a from (String.append_assoc y (", ") a).symm]
      exact ih x (y ++ ", " ++ a)

/-- The comma-prefixing fold agrees with `String.intercalate`'s worker. -/
theorem intercalate_go_eq_foldl (as : List String) :
    ∀ acc : String,
      String.intercalate.go acc (", ") as =
        acc ++ as.foldl (fun b e => b ++ ", " ++ e) "" := by
  induction as with
  | nil => intro acc; exact (String.append_empty acc).symm
  | cons a as ih =>
      intro acc
      show String.intercalate.go (acc ++ ", " ++ a) (", ") as =
          acc ++ as.foldl (fun b e => b ++ ", " ++ e) (", " ++ a)
      rw [ih (acc ++ ", " ++ a)]
      have hx := foldl_comma_prepend as (", " ++ a) ("")
      rw [String.append_empty] at hx
      rw [hx, ← String.append_assoc, String.append_assoc acc (", ") a]

/-- On a non-empty list, `angle` is the `<`-bracketed, `, `-joined form. -/
theorem angle_eq_intercalate (l : List String) (h : l ≠ []) :
    angle l = "<" ++ String.intercalate (", ") l ++ ">" := by
  match l with
  | [] => exact absurd rfl h
  | first :: rest =>
      show "<" ++ first ++ rest.foldl _ "" ++ ">" = _
      rw [show String.intercalate (", ") (first :: rest) =
            String.intercalate.go first (", ") rest from rfl,
        intercalate_go_eq_foldl rest first, ← String.append_assoc]

/-- The `angle` output is empty exactly on the empty list. -/
theorem angle_empty_iff (l : List String) : angle l = "" ↔ l = [] := by
  constructor
  · intro h
    match l with
    | [] => rfl
    | first :: rest =>
        exfalso
        have hlen := congrArg String.length h
        rw [show angle (first :: rest) =
              "<" ++ first ++ rest.foldl (fun acc e => acc ++ ", " ++ e) "" ++ ">"
            from rfl] at hlen
        simp only [String.length_append] at hlen
        have h1 : ("<" : String).length = 1 := rfl
        have h2 : ("" : String).length = 0 := rfl
        omega
  · intro h; rw [h]; rfl

/-! ### The section-3 invariant: every `TraitRef.parameters` is non-empty -/

mutual

/-- The section-3 invariant restricted to a type: every `TraitRef` reachable
inside it has non-empty `parameters`. -/
def tyWF : Ty → Bool
  | .var _ => true
  | .apply a => applicationTyWF a
  | .projection p => projectionTyWF p
  | .forAll q => quantifiedTyWF q

/-- Invariant for a quantified type. -/
def quantifiedTyWF : QuantifiedTy → Bool
  | .mk _ ty => tyWF ty

/-- Invariant for an application type. -/
def applicationTyWF : ApplicationTy → Bool
  | .mk _ parameters => paramsWF parameters

/-- Invariant for a trait reference: its own parameter list is non-empty and
every nested trait reference satisfies the same. -/
def traitRefWF : TraitRef → Bool
  | .mk _ parameters => (!parameters.isEmpty) && paramsWF parameters

/-- Invariant for a projection type. -/
def projectionTyWF : ProjectionTy → Bool
  | .mk traitRef _ => traitRefWF traitRef

/-- Invariant for one parameter slot. -/
def parameterWF : Parameter → Bool
  | .ty t => tyWF t
  | .lifetime _ => true

/-- Invariant for a parameter list. -/
def paramsWF : List Parameter → Bool
  | [] => true
  | p :: ps => parameterWF p && paramsWF ps

end

/-- Invariant for a `Normalize` value. -/
def normalizeWF : Normalize → Bool
  | .mk (ProjectionTy.mk traitRef _) ty => traitRefWF traitRef && tyWF ty

/-- Invariant for a where-clause. -/
def whereClauseWF : WhereClause → Bool
  | .normalize n => normalizeWF n
  | .implemented traitRef => traitRefWF traitRef

/-- Invariant for a unification assertion. -/
def unifyWF (u : Unify Ty) : Bool :=
  tyWF u.a && tyWF u.b

/-- Invariant for a where-clause goal. -/
def whereClauseGoalWF : WhereClauseGoal → Bool
  | .normalize n => normalizeWF n
  | .implemented traitRef => traitRefWF traitRef
  | .unifyTys u => unifyWF u

/-- Invariant for a goal. -/
def goalWF : Goal → Bool
  | .quantified _ _ g => goalWF g
  | .implies wc g => whereClauseWF wc && goalWF g
  | .and g1 g2 => goalWF g1 && goalWF g2
  | .leaf wc => whereClauseGoalWF wc

/-! ### Under the invariant, no renderer reaches the `parameters[0]` panic -/

mutual

/-- A well-formed type always renders. -/
theorem renderTy_isSome (prog : Option Program) :
    ∀ t : Ty, tyWF t = true → (renderTy prog t).isSome = true
  | .var _, _ => rfl
  | .apply a, h => by
      rw [show tyWF (Ty.apply a) = applicationTyWF a from rfl] at h
      exact renderApplicationTy_isSome prog a h
  | .projection p, h => by
      rw [show tyWF (Ty.projection p) = projectionTyWF p from rfl] at h
      exact renderProjectionTy_isSome prog p h
  | .forAll q, h => by
      rw [show tyWF (Ty.forAll q) = quantifiedTyWF q from rfl] at h
      exact renderQuantifiedTy_isSome prog q h

/-- A well-formed quantified type always renders. -/
theorem renderQuantifiedTy_isSome (prog : Option Program) :
    ∀ q : QuantifiedTy, quantifiedTyWF q = true →
      (renderQuantifiedTy prog q).isSome = true
  | .mk numBinders ty, h => by
      have hs := renderTy_isSome prog ty h
      simp only [renderQuantifiedTy]
      cases e : renderTy prog ty with
      | none => rw [e] at hs; exact absurd hs (by simp)
      | some s => simp

/-- A well-formed application type always renders. -/
theorem renderApplicationTy_isSome (prog : Option Program) :
    ∀ a : ApplicationTy, applicationTyWF a = true →
      (renderApplicationTy prog a).isSome = true
  | .mk name parameters, h => by
      have hs := renderParams_isSome prog parameters h
      simp only [renderApplicationTy]
      cases e : renderParams prog parameters with
      | none => rw [e] at hs; exact absurd hs (by simp)
      | some ps => simp

/-- A well-formed trait reference always renders: the `parameters[0]` access
is in bounds and every nested render succeeds. -/
theorem renderTraitRef_isSome (prog : Option Program) :
    ∀ tr : TraitRef, traitRefWF tr = true → (renderTraitRef prog tr).isSome = true
  | .mk traitId [], h => by
      rw [show traitRefWF (TraitRef.mk traitId []) = false from rfl] at h
      exact absurd h (by simp)
  | .mk traitId (p0 :: rest), h => by
      have hps : paramsWF (p0 :: rest) = true := by
        rw [show traitRefWF (TraitRef.mk traitId (p0 :: rest)) =
              ((!(p0 :: rest).isEmpty) && paramsWF (p0 :: rest)) from rfl] at h
        exact (Bool.and_eq_true_iff.mp h).2
      have h0 : parameterWF p0 = true := (Bool.and_eq_true_iff.mp hps).1
      have hr : paramsWF rest = true := (Bool.and_eq_true_iff.mp hps).2
      have hs0 := renderParameter_isSome prog p0 h0
      have hsr := renderParams_isSome prog rest hr
      simp only [renderTraitRef]
      cases e0 : renderParameter prog p0 with
      | none => rw [e0] at hs0; exact absurd hs0 (by simp)
      | some s0 =>
          cases er : renderParams prog rest with
          | none => rw [er] at hsr; exact absurd hsr (by simp)
          | some rs => simp

/-- A well-formed projection type always renders. -/
theorem renderProjectionTy_isSome (prog : Option Program) :
    ∀ p : ProjectionTy, projectionTyWF p = true →
      (renderProjectionTy prog p).isSome = true
  | .mk traitRef name, h => by
      have hs := renderTraitRef_isSome prog traitRef h
      simp only [renderProjectionTy]
      cases e : renderTraitRef prog traitRef with
      | none => rw [e] at hs; exact absurd hs (by simp)
      | some s => simp

/-- A well-formed parameter slot always renders. -/
theorem renderParameter_isSome (prog : Option Program) :
    ∀ p : Parameter, parameterWF p = true → (renderParameter prog p).isSome = true
  | .ty t, h => renderTy_isSome prog t h
  | .lifetime _, _ => rfl

/-- A well-formed parameter list always renders. -/
theorem renderParams_isSome (prog : Option Program) :
    ∀ ps : List Parameter, paramsWF ps = true →
      (renderParams prog ps).isSome = true
  | [], _ => rfl
  | p :: ps, h => by
      have h0 : parameterWF p = true := (Bool.and_eq_true_iff.mp h).1
      have hr : paramsWF ps = true := (Bool.and_eq_true_iff.mp h).2
      have hs0 := renderParameter_isSome prog p h0
      have hsr := renderParams_isSome prog ps hr
      simp only [renderParams]
      cases e0 : renderParameter prog p with
      | none => rw [e0] at hs0; exact absurd hs0 (by simp)
      | some s =>
          cases er : renderParams prog ps with
          | none => rw [er] at hsr; exact absurd hsr (by simp)
          | some ss => simp

end

/-- A well-formed `Normalize` always renders. -/
theorem renderNormalize_isSome (prog : Option Program) :
    ∀ n : Normalize, normalizeWF n = true → (renderNormalize prog n).isSome = true
  | .mk (ProjectionTy.mk (TraitRef.mk traitId parameters) name) ty, h => by
      have htr : traitRefWF (TraitRef.mk traitId parameters) = true :=
        (Bool.and_eq_true_iff.mp h).1
      have hty : tyWF ty = true := (Bool.and_eq_true_iff.mp h).2
      match parameters with
      | [] =>
          rw [show traitRefWF (TraitRef.mk traitId []) = false from rfl] at htr
          exact absurd htr (by simp)
      | p0 :: rest =>
          have hps : paramsWF (p0 :: rest) = true := by
            rw [show traitRefWF (TraitRef.mk traitId (p0 :: rest)) =
                  ((!(p0 :: rest).isEmpty) && paramsWF (p0 :: rest)) from rfl] at htr
            exact (Bool.and_eq_true_iff.mp htr).2
          have hs0 := renderParameter_isSome prog p0 (Bool.and_eq_true_iff.mp hps).1
          have hsr := renderParams_isSome prog rest (Bool.and_eq_true_iff.mp hps).2
          have hsa : (renderAssignment prog name ty).isSome = true := by
            have hst := renderTy_isSome prog ty hty
            simp only [renderAssignment]
            cases e : renderTy prog ty with
            | none => rw [e] at hst; exact absurd hst (by simp)
            | some s => simp
          simp only [renderNormalize]
          cases e0 : renderParameter prog p0 with
          | none => rw [e0] at hs0; exact absurd hs0 (by simp)
          | some s0 =>
              cases er : renderParams prog rest with
              | none => rw [er] at hsr; exact absurd hsr (by simp)
              | some rs =>
                  cases ea : renderAssignment prog name ty with
                  | none => rw [ea] at hsa; exact absurd hsa (by simp)
                  | some assign => simp

/-- A well-formed where-clause always renders. -/
theorem renderWhereClause_isSome (prog : Option Program) :
    ∀ wc : WhereClause, whereClauseWF wc = true →
      (renderWhereClause prog wc).isSome = true
  | .normalize n, h => renderNormalize_isSome prog n h
  | .implemented (TraitRef.mk traitId parameters), h => by
      match parameters with
      | [] =>
          rw [show whereClauseWF (WhereClause.implemented (TraitRef.mk traitId []))
                = false from rfl] at h
          exact absurd h (by simp)
      | p0 :: rest =>
          have hps : paramsWF (p0 :: rest) = true := by
            rw [show whereClauseWF
                  (WhereClause.implemented (TraitRef.mk traitId (p0 :: rest))) =
                  ((!(p0 :: rest).isEmpty) && paramsWF (p0 :: rest)) from rfl] at h
            exact (Bool.and_eq_true_iff.mp h).2
          have hs0 := renderParameter_isSome prog p0 (Bool.and_eq_true_iff.mp hps).1
          have hsr := renderParams_isSome prog rest (Bool.and_eq_true_iff.mp hps).2
          simp only [renderWhereClause]
          cases e0 : renderParameter prog p0 with
          | none => rw [e0] at hs0; exact absurd hs0 (by simp)
          | some s0 =>
              cases er : renderParams prog rest with
              | none => rw [er] at hsr; exact absurd hsr (by simp)
              | some rs => simp

/-- A well-formed unification assertion always renders. -/
theorem renderUnify_isSome (prog : Option Program) (u : Unify Ty)
    (h : unifyWF u = true) : (renderUnify prog u).isSome = true := by
  have hsa := renderTy_isSome prog u.a (Bool.and_eq_true_iff.mp h).1
  have hsb := renderTy_isSome prog u.b (Bool.and_eq_true_iff.mp h).2
  simp only [renderUnify]
  cases ea : renderTy prog u.a with
  | none => rw [ea] at hsa; exact absurd hsa (by simp)
  | some sa =>
      cases eb : renderTy prog u.b with
      | none => rw [eb] at hsb; exact absurd hsb (by simp)
      | some sb => simp

/-- A well-formed where-clause goal always renders. -/
theorem renderWhereClauseGoal_isSome (prog : Option Program) :
    ∀ wc : WhereClauseGoal, whereClauseGoalWF wc = true →
      (renderWhereClauseGoal prog wc).isSome = true
  | .normalize n, h => renderNormalize_isSome prog n h
  | .unifyTys u, h => by
      rw [show renderWhereClauseGoal prog (WhereClauseGoal.unifyTys u) =
            renderUnify prog u from rfl]
      exact renderUnify_isSome prog u h
  | .implemented (TraitRef.mk traitId parameters), h => by
      match parameters with
      | [] =>
          rw [show whereClauseGoalWF
                (WhereClauseGoal.implemented (TraitRef.mk traitId []))
                = false from rfl] at h
          exact absurd h (by simp)
      | p0 :: rest =>
          have hps : paramsWF (p0 :: rest) = true := by
            rw [show whereClauseGoalWF
                  (WhereClauseGoal.implemented (TraitRef.mk traitId (p0 :: rest))) =
                  ((!(p0 :: rest).isEmpty) && paramsWF (p0 :: rest)) from rfl] at h
            exact (Bool.and_eq_true_iff.mp h).2
          have hs0 := renderParameter_isSome prog p0 (Bool.and_eq_true_iff.mp hps).1
          have hsr := renderParams_isSome prog rest (Bool.and_eq_true_iff.mp hps).2
          simp only [renderWhereClauseGoal]
          cases e0 : renderParameter prog p0 with
          | none => rw [e0] at hs0; exact absurd hs0 (by simp)
          | some s0 =>
              cases er : renderParams prog rest with
              | none => rw [er] at hsr; exact absurd hsr (by simp)
              | some rs => simp

/-- A well-formed goal always renders. -/
theorem renderGoal_isSome (prog : Option Program) :
    ∀ g : Goal, goalWF g = true → (renderGoal prog g).isSome = true
  | .quantified qkind binder g, h => by
      have hs := renderGoal_isSome prog g h
      match binder with
      | BinderKind.ty =>
          simp only [renderGoal]
          cases e : renderGoal prog g with
          | none => rw [e] at hs; exact absurd hs (by simp)
          | some s => simp
      | BinderKind.lifetime =>
          simp only [renderGoal]
          cases e : renderGoal prog g with
          | none => rw [e] at hs; exact absurd hs (by simp)
          | some s => simp
  | .implies wc g, h => by
      have hw := renderWhereClause_isSome prog wc (Bool.and_eq_true_iff.mp h).1
      have hg := renderGoal_isSome prog g (Bool.and_eq_true_iff.mp h).2
      simp only [renderGoal]
      cases ew : renderWhereClause prog wc with
      | none => rw [ew] at hw; exact absurd hw (by simp)
      | some sw =>
          cases eg : renderGoal prog g with
          | none => rw [eg] at hg; exact absurd hg (by simp)
          | some sg => simp
  | .and g1 g2, h => by
      have h1 := renderGoal_isSome prog g1 (Bool.and_eq_true_iff.mp h).1
      have h2 := renderGoal_isSome prog g2 (Bool.and_eq_true_iff.mp h).2
      simp only [renderGoal]
      cases e1 : renderGoal prog g1 with
      | none => rw [e1] at h1; exact absurd h1 (by simp)
      | some s1 =>
          cases e2 : renderGoal prog g2 with
          | none => rw [e2] at h2; exact absurd h2 (by simp)
          | some s2 => simp
  | .leaf wc, h => renderWhereClauseGoal_isSome prog wc h

/-- The program of the spec's program-resolution scenario: it registers
exactly `ItemId(0) -> "Vec"`. -/
def vecProgram : Program :=
  Program.mk [(ItemId.mk 0, TypeKind.mk ("Vec"))]

/-- A single render step appended to a history of prior render calls, used to
state that rendering is independent of prior calls. -/
def renderSequence (prog : Option Program) (gs : List Goal) : List (Option String) :=
  gs.map (renderGoal prog)

/-! ### The claims -/

/-- C4: for every sequence of rendered elements, the `Angle` output is empty
iff the sequence is empty; on a non-empty sequence it is `<`, the elements
in order joined by `, `, and `>`. -/
theorem c4_angle_spec (S : List String) :
    (angle S = "" ↔ S = []) ∧
    (S ≠ [] → angle S = "<" ++ String.intercalate (", ") S ++ ">") :=
  ⟨angle_empty_iff S, fun h => angle_eq_intercalate S h⟩

/-- C4 witness: the bracketed joined form at a concrete two-element list. -/
theorem c4_angle_spec_witness :
    ((["a", "b"] : List String) ≠ []) ∧
    angle ["a", "b"] = "<" ++ String.intercalate (", ") ["a", "b"] ++ ">" :=
  ⟨by decide, (c4_angle_spec ["a", "b"]).2 (by decide)⟩

/-- C5: rendering a `TraitRef` with non-empty parameters `p0 :: rest` is the
rendering of `p0`, then the literal " as ", then the rendered trait id, then
the `Angle` rendering of the remaining parameters (empty when `rest` is). -/
theorem c5_traitRef_form (prog : Option Program) (traitId : ItemId)
    (p0 : Parameter) (rest : List Parameter) (s0 : String) (rs : List String)
    (h0 : renderParameter prog p0 = some s0)
    (hr : renderParams prog rest = some rs) :
    renderTraitRef prog (TraitRef.mk traitId (p0 :: rest)) =
      some (s0 ++ " as " ++ renderItemId prog traitId ++ angle rs) := by
  simp only [renderTraitRef, h0, hr]

/-- C5 witness: the `SelfTy as T<Arg>` instance. -/
theorem c5_traitRef_form_witness :
    renderTraitRef (some exProgram)
        (TraitRef.mk (ItemId.mk 7) [Parameter.ty (namedTy 0), Parameter.ty (namedTy 1)]) =
      some ("SelfTy" ++ " as " ++ renderItemId (some exProgram) (ItemId.mk 7) ++
            angle ["Arg"]) :=
  c5_traitRef_form (some exProgram) (ItemId.mk 7) (Parameter.ty (namedTy 0))
    [Parameter.ty (namedTy 1)] ("SelfTy") ["Arg"] (by decide) (by decide)

/-- C9: `Ty::Var(d)` renders as exactly `?{d}`, and `Lifetime::Var(d)` as
`?{d}` prefixed with the single-quote character. -/
theorem c9_var_forms (prog : Option Program) (d : Nat) :
    renderTy prog (Ty.var d) = some ("?" ++ Nat.repr d) ∧
    renderLifetime (Lifetime.var d) = singleQuote ++ "?" ++ Nat.repr d ∧
    singleQuote = String.singleton (Char.ofNat 39) :=
  ⟨rfl, rfl, rfl⟩

/-- C8: rendering is deterministic — the output of a render call is a pure
function of the term and the installed program, independent of prior calls:
the last output of a call sequence ending in `g` does not depend on the
prior history, and re-rendering the same term gives the same text. -/
theorem c8_deterministic (prog : Option Program) (gs1 gs2 : List Goal) (g : Goal) :
    (renderSequence prog (gs1 ++ [g])).getLast? =
      (renderSequence prog (gs2 ++ [g])).getLast? ∧
    renderGoal prog g = renderGoal prog g := by
  refine ⟨?_, rfl⟩
  show (List.map (renderGoal prog) (gs1 ++ [g])).getLast? =
      (List.map (renderGoal prog) (gs2 ++ [g])).getLast?
  rw [List.map_append, List.map_append]
  rw [show List.map (renderGoal prog) [g] = [renderGoal prog g] from rfl]
  rw [List.getLast?_concat, List.getLast?_concat]

/-- C3 (the code, at the claim's failing input): both binder kinds of a
quantified goal are rendered with the same literal `<type>` label — the
`Lifetime` binder does not get a lifetime-specific label. -/
theorem c3_quantified_label (prog : Option Program) (qkind : String) (g : Goal) :
    renderGoal prog (Goal.quantified qkind BinderKind.lifetime g) =
      renderGoal prog (Goal.quantified qkind BinderKind.ty g) ∧
    renderGoal (some exProgram)
        (Goal.quantified ("exists") BinderKind.lifetime
          (Goal.leaf (WhereClauseGoal.implemented exTraitRef))) =
      some ("exists<type> \x7b SelfTy: T \x7d") := by
  constructor
  · show (match renderGoal prog g with
        | some s => some (qkind ++ "<type> \x7b " ++ s ++ " \x7d")
        | none => none) = _
    rfl
  · decide

/-- C6: an `ItemId` rendered under a program that knows it prints the
declared name verbatim; with no program, or an unknown id, it prints the
structural fallback `ItemId \x7b index: N \x7d`; in particular the `Vec`
scenario of the spec. -/
theorem c6_itemId_resolution :
    (∀ (p : Program) (id : ItemId) (k : TypeKind),
        p.typeKinds.lookup id = some k → renderItemId (some p) id = k.name) ∧
    (∀ id : ItemId, renderItemId none id =
        "ItemId \x7b index: " ++ Nat.repr id.index ++ " \x7d") ∧
    (∀ (p : Program) (id : ItemId), p.typeKinds.lookup id = none →
        renderItemId (some p) id =
          "ItemId \x7b index: " ++ Nat.repr id.index ++ " \x7d") ∧
    renderApplicationTy (some vecProgram)
        (ApplicationTy.mk (TypeName.itemId (ItemId.mk 0)) []) = some ("Vec") ∧
    renderApplicationTy none
        (ApplicationTy.mk (TypeName.itemId (ItemId.mk 0)) []) =
      some ("ItemId \x7b index: 0 \x7d") := by
  refine ⟨?_, fun id => rfl, ?_, by decide, by decide⟩
  · intro p id k h
    show (match (some p).bind (fun q => q.typeKinds.lookup id) with
        | some k => k.name
        | none => "ItemId \x7b index: " ++ Nat.repr id.index ++ " \x7d") = k.name
    rw [show (some p).bind (fun q => q.typeKinds.lookup id) =
          p.typeKinds.lookup id from rfl, h]
  · intro p id h
    show (match (some p).bind (fun q => q.typeKinds.lookup id) with
        | some k => k.name
        | none => "ItemId \x7b index: " ++ Nat.repr id.index ++ " \x7d") = _
    rw [show (some p).bind (fun q => q.typeKinds.lookup id) =
          p.typeKinds.lookup id from rfl, h]

/-- C6 witness: resolution and fallback at the concrete `Vec` program. -/
theorem c6_itemId_resolution_witness :
    vecProgram.typeKinds.lookup (ItemId.mk 0) = some (TypeKind.mk ("Vec")) ∧
    renderItemId (some vecProgram) (ItemId.mk 0) = (TypeKind.mk ("Vec")).name ∧
    vecProgram.typeKinds.lookup (ItemId.mk 3) = none ∧
    renderItemId (some vecProgram) (ItemId.mk 3) =
      "ItemId \x7b index: " ++ Nat.repr (ItemId.mk 3).index ++ " \x7d" :=
  ⟨by decide,
   c6_itemId_resolution.1 vecProgram (ItemId.mk 0) (TypeKind.mk ("Vec")) (by decide),
   by decide,
   c6_itemId_resolution.2.2.1 vecProgram (ItemId.mk 3) (by decide)⟩

/-- C1 counterexample: at the spec's own section-8 input the code renders
`SelfTy: T<Arg, Item = OutTy>` — with the literal `: ` — and not the
claimed `SelfTy as T<Arg, Item = OutTy>`. -/
theorem c1_counterexample :
    renderNormalize (some exProgram) exNormalize =
        some ("SelfTy: T<Arg, Item = OutTy>") ∧
    renderNormalize (some exProgram) exNormalize ≠
        some ("SelfTy as T<Arg, Item = OutTy>") :=
  ⟨by decide, by decide⟩

/-- C1 (amended): rendering a `Normalize` produces the Self parameter, then
the literal `: ` (not ` as `), then the rendered trait id, then the
angle-bracket list of the remaining trait-ref parameters in order followed
by the synthetic `{name} = {ty}` assignment as the final argument; the
section-8 example renders as `SelfTy: T<Arg, Item = OutTy>`. -/
theorem c1_normalize_form :
    (∀ (prog : Option Program) (traitId : ItemId) (p0 : Parameter)
        (rest : List Parameter) (name : String) (ty : Ty)
        (s0 : String) (rs : List String) (sty : String),
      renderParameter prog p0 = some s0 →
      renderParams prog rest = some rs →
      renderTy prog ty = some sty →
      renderNormalize prog
          (Normalize.mk (ProjectionTy.mk (TraitRef.mk traitId (p0 :: rest)) name) ty) =
        some (s0 ++ ": " ++ renderItemId prog traitId ++
              angle (rs ++ [name ++ " = " ++ sty]))) ∧
    renderNormalize (some exProgram) exNormalize =
      some ("SelfTy: T<Arg, Item = OutTy>") := by
  constructor
  · intro prog traitId p0 rest name ty s0 rs sty h0 hr ht
    simp only [renderNormalize, renderAssignment, h0, hr, ht]
  · decide

/-- C1 witness: the general form instantiated at the section-8 input. -/
theorem c1_normalize_form_witness :
    renderNormalize (some exProgram) exNormalize =
      some ("SelfTy" ++ ": " ++ renderItemId (some exProgram) (ItemId.mk 7) ++
            angle (["Arg"] ++ ["Item" ++ " = " ++ "OutTy"])) :=
  c1_normalize_form.1 (some exProgram) (ItemId.mk 7) (Parameter.ty (namedTy 0))
    [Parameter.ty (namedTy 1)] ("Item") (namedTy 2) ("SelfTy") ["Arg"] ("OutTy")
    (by decide) (by decide) (by decide)

/-- C2 counterexample: `WhereClause::Implemented` renders with the literal
`: `, so its output is not the ` as ` shape of rendering the `TraitRef`
itself: at a concrete trait reference the two renderings differ. -/
theorem c2_counterexample :
    renderWhereClause (some exProgram) (WhereClause.implemented exTraitRef) =
        some ("SelfTy: T") ∧
    renderTraitRef (some exProgram) exTraitRef = some ("SelfTy as T") ∧
    renderWhereClause (some exProgram) (WhereClause.implemented exTraitRef) ≠
      renderTraitRef (some exProgram) exTraitRef :=
  ⟨by decide, by decide, by decide⟩

/-- C2 (amended): both `WhereClause::Implemented` and
`WhereClauseGoal::Implemented` render as the rendered `parameters[0]`, the
literal `: `, the rendered trait id and the angle-bracket list of
`parameters[1..]` — a shape that differs from the ` as ` form used when
rendering the `TraitRef` itself. -/
theorem c2_implemented_form (prog : Option Program) (traitId : ItemId)
    (p0 : Parameter) (rest : List Parameter) (s0 : String) (rs : List String)
    (h0 : renderParameter prog p0 = some s0)
    (hr : renderParams prog rest = some rs) :
    renderWhereClause prog
        (WhereClause.implemented (TraitRef.mk traitId (p0 :: rest))) =
      some (s0 ++ ": " ++ renderItemId prog traitId ++ angle rs) ∧
    renderWhereClauseGoal prog
        (WhereClauseGoal.implemented (TraitRef.mk traitId (p0 :: rest))) =
      some (s0 ++ ": " ++ renderItemId prog traitId ++ angle rs) := by
  constructor
  · simp only [renderWhereClause, h0, hr]
  · simp only [renderWhereClauseGoal, h0, hr]

/-- C2 witness: the `Implemented` colon form at a concrete trait reference. -/
theorem c2_implemented_form_witness :
    renderWhereClause (some exProgram) (WhereClause.implemented exTraitRef) =
      some ("SelfTy" ++ ": " ++ renderItemId (some exProgram) (ItemId.mk 7) ++
            angle []) :=
  (c2_implemented_form (some exProgram) (ItemId.mk 7) (Parameter.ty (namedTy 0))
    [] ("SelfTy") [] (by decide) (by decide)).1

/-- C7: under the invariant that every reachable `TraitRef` has non-empty
parameters, no renderer reaches the `parameters[0]` out-of-bounds access
(every render succeeds); on an empty parameter list the access is the
modelled panic `none`, which propagates uncaught to the top of the render
rather than being recovered from. -/
theorem c7_empty_parameters_panic :
    (∀ (prog : Option Program) (tr : TraitRef), traitRefWF tr = true →
        (renderTraitRef prog tr).isSome = true) ∧
    (∀ (prog : Option Program) (n : Normalize), normalizeWF n = true →
        (renderNormalize prog n).isSome = true) ∧
    (∀ (prog : Option Program) (wc : WhereClause), whereClauseWF wc = true →
        (renderWhereClause prog wc).isSome = true) ∧
    (∀ (prog : Option Program) (g : Goal), goalWF g = true →
        (renderGoal prog g).isSome = true) ∧
    (∀ (prog : Option Program) (traitId : ItemId) (name : String) (ty : Ty),
        renderTraitRef prog (TraitRef.mk traitId []) = none ∧
        renderNormalize prog
            (Normalize.mk (ProjectionTy.mk (TraitRef.mk traitId []) name) ty) = none ∧
        renderWhereClause prog
            (WhereClause.implemented (TraitRef.mk traitId [])) = none ∧
        renderGoal prog
            (Goal.leaf (WhereClauseGoal.implemented (TraitRef.mk traitId []))) = none) :=
  ⟨fun prog tr h => renderTraitRef_isSome prog tr h,
   fun prog n h => renderNormalize_isSome prog n h,
   fun prog wc h => renderWhereClause_isSome prog wc h,
   fun prog g h => renderGoal_isSome prog g h,
   fun _ _ _ _ => ⟨rfl, rfl, rfl, rfl⟩⟩

/-- C7 witness: a concrete well-formed goal renders successfully. -/
theorem c7_empty_parameters_panic_witness :
    goalWF (Goal.leaf (WhereClauseGoal.implemented exTraitRef)) = true ∧
    (renderGoal (some exProgram)
        (Goal.leaf (WhereClauseGoal.implemented exTraitRef))).isSome = true :=
  ⟨by decide,
   c7_empty_parameters_panic.2.2.2.1 (some exProgram)
     (Goal.leaf (WhereClauseGoal.implemented exTraitRef)) (by decide)⟩

/-- C10: the `Normalize` renderer always emits an angle-bracket list: the
argument list handed to `Angle` ends with the synthetic assignment and so is
never empty, and a `Normalize` whose trait reference carries only the Self
parameter still renders with `<{name} = {ty}>` rather than omitting the
brackets. -/
theorem c10_normalize_always_bracketed (prog : Option Program)
    (traitId : ItemId) (p0 : Parameter) (rest : List Parameter)
    (name : String) (ty : Ty) (s0 : String) (rs : List String) (sty : String)
    (h0 : renderParameter prog p0 = some s0)
    (hr : renderParams prog rest = some rs)
    (ht : renderTy prog ty = some sty) :
    (rs ++ [name ++ " = " ++ sty] ≠ []) ∧
    renderNormalize prog
        (Normalize.mk (ProjectionTy.mk (TraitRef.mk traitId (p0 :: rest)) name) ty) =
      some (s0 ++ ": " ++ renderItemId prog traitId ++
            ("<" ++ String.intercalate (", ") (rs ++ [name ++ " = " ++ sty]) ++ ">")) ∧
    renderNormalize prog
        (Normalize.mk (ProjectionTy.mk (TraitRef.mk traitId [p0]) name) ty) =
      some (s0 ++ ": " ++ renderItemId prog traitId ++
            ("<" ++ (name ++ " = " ++ sty) ++ ">")) := by
  refine ⟨by simp, ?_, ?_⟩
  · simp only [renderNormalize, renderAssignment, h0, hr, ht]
    rw [angle_eq_intercalate (rs ++ [name ++ " = " ++ sty]) (by simp)]
  · simp only [renderNormalize, renderParams, renderAssignment, h0, ht]
    rw [angle_eq_intercalate ([] ++ [name ++ " = " ++ sty]) (by simp)]
    rfl

/-- C10 witness: a Self-only `Normalize` still renders with the brackets. -/
theorem c10_normalize_always_bracketed_witness :
    renderNormalize (some exProgram)
        (Normalize.mk (ProjectionTy.mk exTraitRef ("Item")) (namedTy 2)) =
      some ("SelfTy" ++ ": " ++ renderItemId (some exProgram) (ItemId.mk 7) ++
            ("<" ++ ("Item" ++ " = " ++ "OutTy") ++ ">")) :=
  (c10_normalize_always_bracketed (some exProgram) (ItemId.mk 7)
    (Parameter.ty (namedTy 0)) [] ("Item") (namedTy 2) ("SelfTy") [] ("OutTy")
    (by decide) (by decide) (by decide)).2.2

end Chalk
